import Mathlib

/-!
Verification development for the hc-scheduler GitHub action.

The definitions below are a shallow embedding of the JavaScript sources:
  * `src/healthcheck-helpers.js` — `findOverdueIssues` (the matcher / staleness
    engine) and the slug normalization performed by `parseHealthCheckFile`;
  * `src/update-issue.js` — `composeNotificationComment`, `addIssueComment`,
    `unlabelIssue`;
  * `src/index.js` — the per-issue loop of `run` (lines 44-78).

Conventions of the embedding:
  * JS `Date` values are modelled post-parse as `Option Int`: `some t` is a
    valid date with millisecond timestamp `t` (`Date.prototype.getTime`),
    `none` is an Invalid Date, whose timestamp is `NaN`.
  * `new Date()` captured by the code is passed explicitly as a `now : Int`
    parameter (a single instant per run).
  * JS numbers that the code produces by `Math.floor` of an exact division of
    integers are modelled as `Int` with `Int.fdiv` (floor division); `NaN`
    propagation is modelled by `Option`.
  * Fallible JS code is modelled with `Except`/`JsResult`; invocations of the
    mutating collaborators (octokit comment creation / label removal) are
    recorded in an explicit `Action` trace.
-/

namespace HcScheduler

/-- The characters matched by the JavaScript regex class `\s`
(ECMA-262 WhiteSpace plus LineTerminator). -/
def jsIsSpace (c : Char) : Bool :=
  c.toNat = 9 || c.toNat = 10 || c.toNat = 11 || c.toNat = 12 || c.toNat = 13 ||
  c.toNat = 32 || c.toNat = 160 || c.toNat = 0x1680 ||
  (0x2000 ≤ c.toNat && c.toNat ≤ 0x200a) ||
  c.toNat = 0x2028 || c.toNat = 0x2029 || c.toNat = 0x202f ||
  c.toNat = 0x205f || c.toNat = 0x3000 || c.toNat = 0xfeff

/-- The characters matched by the JavaScript regex class `\d`. -/
def jsIsDigit (c : Char) : Bool :=
  48 ≤ c.toNat && c.toNat ≤ 57

/-- The ECMA-262 LineTerminator characters, which the regex `.` (without the
`s` flag) does not match. -/
def jsIsLineTerminator (c : Char) : Bool :=
  c.toNat = 10 || c.toNat = 13 || c.toNat = 0x2028 || c.toNat = 0x2029

/-- Whether the regex `\s*-\s*\d+.*$` of `src/healthcheck-helpers.js:18`
matches starting exactly at the head of `l`.

The `\s*-\s*\d+` part: optional whitespace, then a hyphen, then optional
whitespace, then at least one digit.  `\s*` can only consume whitespace
characters, so the hyphen must be the first non-whitespace character, and the
digit the first non-whitespace character after the hyphen (note `\s` matches
line terminators, so these whitespace runs may cross them).

The `.*$` part: `.` does not match a line terminator and `$` (the regex has
no `m` flag) asserts end of input, so after the first digit the remainder of
the string is consumable exactly when it contains no line terminator
(digits are not line terminators, so backtracking inside `\d+` cannot change
this).  A marker whose digits are followed, anywhere before the end of the
title, by a line terminator is therefore NOT a match. -/
def markerMatchesHere (l : List Char) : Bool :=
  match l.dropWhile jsIsSpace with
  | [] => false
  | c :: rest =>
    c = '-' &&
      (match rest.dropWhile jsIsSpace with
       | [] => false
       | d :: tail => jsIsDigit d && tail.all (fun x => !jsIsLineTerminator x))

/-- `title.replace(/\s*-\s*\d+.*$/, '')` (src/healthcheck-helpers.js:18).
A JS `replace` with a non-global regex replaces the leftmost match, so the
result is the prefix of the title before the first index at which the full
regex matches (`markerMatchesHere`; everything from there to the end of the
input is deleted, since the match extends to `$`), and the whole title when
there is no match. -/
def stripTitle : List Char → List Char
  | [] => []
  | c :: rest =>
    if markerMatchesHere (c :: rest) then [] else c :: stripTitle rest

/-- The `enterpriseSlug` derived from an issue title
(src/healthcheck-helpers.js:18). -/
def stripEnterpriseSlug (title : String) : String :=
  ⟨stripTitle title.data⟩

/-- ASCII upper-case letter test (the `A`-`Z` range, on which JS
`toLowerCase` and this model agree). -/
def isAsciiUpper (c : Char) : Bool :=
  65 ≤ c.toNat && c.toNat ≤ 90

/-- Lower-casing of one character, restricted to ASCII, where it coincides
with JS `String.prototype.toLowerCase`. -/
def asciiLowerChar (c : Char) : Char :=
  if isAsciiUpper c then Char.ofNat (c.toNat + 32) else c

/-- Lower-casing of a string, restricted to ASCII. -/
def asciiLowerString (s : String) : String :=
  ⟨s.data.map asciiLowerChar⟩

/-- A healthcheck record as consumed by the matcher: the YAML frontmatter
fields `enterprise_slug` and `date` (src/healthcheck-helpers.js:21-27).
`date` is the post-parse view of `new Date(hc.date)`: `some t` for a valid
date with timestamp `t` ms, `none` for an Invalid Date (`NaN`). -/
structure Healthcheck where
  enterprise_slug : String
  date : Option Int
deriving DecidableEq

/-- The slug normalization performed at load time by `parseHealthCheckFile`
(src/healthcheck-helpers.js:107-110): `frontmatter.enterprise_slug =
frontmatter.enterprise_slug.toLowerCase()`. -/
def loadNormalize (hc : Healthcheck) : Healthcheck :=
  { hc with enterprise_slug := asciiLowerString hc.enterprise_slug }

/-- A checkable issue, with the fields produced by `mapCheckableIssues`
(src/fetch-helpers.js): `number`, `title`, `assignees`, `labels`, `url`,
`skip_healthcheck_notification`. -/
structure Issue where
  number : Nat
  title : String
  url : String
  assignees : List String
  labels : List String
  skip_healthcheck_notification : Bool
deriving DecidableEq

/-- The object built for each issue by the arrow function at
src/healthcheck-helpers.js:17-43: the spread `...issue` (all original issue
fields, kept in `issue`) plus the derived fields `enterprise_slug`,
`last_healthcheck_date` and `days_since_healthcheck`.

`last_healthcheck_date` is JS `null` (`none`) when there is no matching
record, otherwise `some` of the most recent matching record's date value
(itself `Option Int`: `none` if that date is unparseable).
`days_since_healthcheck` is `null` (`none`) in the first case, otherwise
`some` of `Math.floor((now - date) / 86400000)`, which is `NaN`
(inner `none`) when the date is unparseable. -/
structure OverdueIssue where
  issue : Issue
  enterprise_slug : String
  last_healthcheck_date : Option (Option Int)
  days_since_healthcheck : Option (Option Int)
deriving DecidableEq

/-- The sort comparator value `new Date(b.date) - new Date(a.date)`
(src/healthcheck-helpers.js:27), as used by ECMA-262 `Array.prototype.sort`,
which only tests `v < 0` and `v > 0`: a `NaN` comparator value (either date
invalid) behaves like `0`. -/
def jsCompare (a b : Healthcheck) : Int :=
  match b.date, a.date with
  | some tb, some ta => tb - ta
  | _, _ => 0

/-- Stable insertion of `x` into an already-sorted list: `x` is placed before
the first element it need not follow.  For a consistent comparator (all dates
valid) stable insertion sort produces exactly the list required of
`Array.prototype.sort` (stable since ES2019). -/
def insertByDate (x : Healthcheck) : List Healthcheck → List Healthcheck
  | [] => [x]
  | y :: ys => if jsCompare x y ≤ 0 then x :: y :: ys else y :: insertByDate x ys

/-- `matchingHealthchecks.sort((a, b) => new Date(b.date) - new Date(a.date))`
(src/healthcheck-helpers.js:26-27): stable sort, descending by date. -/
def sortByDateDesc : List Healthcheck → List Healthcheck
  | [] => []
  | x :: xs => insertByDate x (sortByDateDesc xs)

/-- `healthchecks.filter(hc => hc.enterprise_slug === enterpriseSlug)`
(src/healthcheck-helpers.js:21-23). -/
def matchingRecords (hcs : List Healthcheck) (iss : Issue) : List Healthcheck :=
  hcs.filter (fun hc => hc.enterprise_slug == stripEnterpriseSlug iss.title)

/-- Milliseconds per day, the divisor `1000 * 60 * 60 * 24` of
src/healthcheck-helpers.js:34. -/
def msPerDay : Int := 86400000

/-- The arrow function of `issues.map` at src/healthcheck-helpers.js:17-43:
derive the slug, select the most recent matching record
(`sort(...)[0]`), and fill `last_healthcheck_date` /
`days_since_healthcheck` (both JS `null` when there is no match). -/
def reconcileIssue (hcs : List Healthcheck) (now : Int) (iss : Issue) : OverdueIssue :=
  let enterpriseSlug := stripEnterpriseSlug iss.title
  match (sortByDateDesc (matchingRecords hcs iss)).head? with
  | none =>
    { issue := iss, enterprise_slug := enterpriseSlug
      last_healthcheck_date := none, days_since_healthcheck := none }
  | some hc =>
    { issue := iss, enterprise_slug := enterpriseSlug
      last_healthcheck_date := some hc.date
      days_since_healthcheck := some (hc.date.map (fun t => Int.fdiv (now - t) msPerDay)) }

/-- The JS comparison `x > m` where `x` is `null`, a number, or `NaN`
(`none`, `some (some k)`, `some none`): `null` coerces to `+0`, any
comparison with `NaN` is false. -/
def jsNumGtNullable : Option (Option Int) → Int → Bool
  | none, m => decide ((0 : Int) > m)
  | some none, _ => false
  | some (some k), m => decide (k > m)

/-- The filter predicate of src/healthcheck-helpers.js:44-48:
`issue.last_healthcheck_date === null || issue.days_since_healthcheck >
maxStalenessInDays`. -/
def isOverdue (maxStalenessInDays : Int) (o : OverdueIssue) : Bool :=
  o.last_healthcheck_date.isNone || jsNumGtNullable o.days_since_healthcheck maxStalenessInDays

/-- `findOverdueIssues` (src/healthcheck-helpers.js:13-51).  The `now` that
the source captures once with `new Date()` at line 14 is passed explicitly. -/
def findOverdueIssues (healthchecks : List Healthcheck) (issues : List Issue)
    (maxStalenessInDays : Int) (now : Int) : List OverdueIssue :=
  (issues.map (reconcileIssue healthchecks now)).filter (isOverdue maxStalenessInDays)

example : stripEnterpriseSlug ("Acme - 123") = "Acme" := by decide
example : stripEnterpriseSlug ("alpha - 12 - 34") = "alpha" := by decide
example : stripEnterpriseSlug ("NoSuffix") = "NoSuffix" := by decide
example : stripEnterpriseSlug ("a1-2") = "a1" := by decide
example : stripEnterpriseSlug ("alpha - 12\nX") = "alpha - 12\nX" := by decide
example : stripEnterpriseSlug ("alpha - 12\n - 34") = "alpha - 12" := by decide
example : stripEnterpriseSlug ("alpha - 12\tX") = "alpha" := by decide

/-- Outcome of calling a JS function: a returned value, or a thrown
exception carrying its message. -/
inductive JsResult (α : Type) where
  | ret (a : α)
  | thrown (e : String)
deriving DecidableEq

/-- The `{ok, message}` objects returned by the two Notifier operations of
src/update-issue.js. -/
structure CommentResult where
  ok : Bool
  message : String
deriving DecidableEq

/-- An invocation of one of the two mutating octokit collaborators.  The
trace records invocations (a call that the backend then rejects is still an
invocation); a dry run must produce an empty trace. -/
inductive Action where
  | postComment (issueNumber : Nat)
  | removeLabel (issueNumber : Nat)
deriving DecidableEq

/-- `composeNotificationComment` (src/update-issue.js:6-43).  `formatDate`
abstracts the `Intl.DateTimeFormat('en-US', ...)` rendering of a timestamp.

Source quirks reproduced here:
  * in the `last_healthcheck_date === null` branch the template literal at
    line 12 is followed, after a line break, by a bare string literal;
    automatic semicolon insertion ends the assignment at the template, so the
    second sentence is a discarded expression statement and `baseMessage` is
    only the first sentence (with its trailing space);
  * a non-null but unparseable date throws (`throw new Error` at line 18);
    the thrown message interpolates the raw date value, which this embedding
    does not retain, so it is abbreviated. -/
def composeNotificationComment (o : OverdueIssue) (skipLabelName : String)
    (formatDate : Int → String) (now : Int) : Except String String :=
  let baseMessage : Except String String :=
    match o.last_healthcheck_date with
    | none =>
      Except.ok ("No healthchecks were found for the issue titled \x27" ++
        o.issue.title ++ "\x27. ")
    | some d =>
      match d with
      | none => Except.error ("Invalid date")
      | some t =>
        let ageInDays : Int := Int.fdiv (now - t) msPerDay
        Except.ok ("The enterprise " ++ o.issue.title ++
          " is due for a health check because its last check was " ++
          toString ageInDays ++ " days ago on " ++ formatDate t ++ ".")
  match baseMessage with
  | Except.error e => Except.error e
  | Except.ok base =>
    let suppressionAdvice :=
      "If you\x27d like to suppress this message temporarily, add the label \x60" ++
        skipLabelName ++ "\x60 to the issue " ++ o.issue.url
    let finalMessage := base ++ " " ++ suppressionAdvice
    if o.issue.assignees.length > 0 then
      let assigneeMentions :=
        String.intercalate (" ") (o.issue.assignees.map (fun a => "@" ++ a))
      Except.ok ("Heads-up " ++ assigneeMentions ++ "! " ++ finalMessage ++ ".")
    else
      Except.ok finalMessage

/-- The bindings declared with `const`/`let` INSIDE the `try` block of
`addIssueComment` (src/update-issue.js:56-76): `notificationComment`,
`issueDescription`, `returnMessage`, `result`.  In JS these are block-scoped
to the `try` block. -/
structure AddCommentTryScope where
  notificationComment : String
  issueDescription : String
  returnMessage : String
  result : Bool

/-- Whether an identifier declared inside the `try` block of
`addIssueComment` is visible at program points outside that block (the
`catch` block at lines 77-79 and the `return` statement at line 80).  JS
`let`/`const` declarations are scoped to their enclosing block, so the answer
is no for every such identifier; reading one of them there throws a
`ReferenceError` (assuming, as in the action's Node runtime, that no global
variable shadows these names). -/
def tryBlockBindingVisibleOutside (_ident : String) : Bool := false

/-- The `try` block of `addIssueComment` (src/update-issue.js:56-76), as the
pair of its outcome (its local bindings on normal completion, or the thrown
error) and the collaborator invocations it performed.  `commentThrows` is the
behavior of `octokit.rest.issues.createComment`: `some e` if it throws `e`. -/
def addIssueCommentTryBlock (repoOwner repoName : String) (commentThrows : Option String)
    (o : OverdueIssue) (isDryRun : Bool) (skipLabelName : String)
    (formatDate : Int → String) (now : Int) :
    Except String AddCommentTryScope × List Action :=
  match composeNotificationComment o skipLabelName formatDate now with
  | Except.error e => (Except.error e, [])
  | Except.ok notificationComment =>
    let issueDescription := "#" ++ toString o.issue.number ++ " " ++ o.issue.title ++
      " in " ++ repoOwner ++ "/" ++ repoName ++ ": " ++ notificationComment
    if isDryRun then
      (Except.ok
        { notificationComment := notificationComment
          issueDescription := issueDescription
          returnMessage := "[DRY-RUN] Would have commented on issue " ++ issueDescription
          result := true }, [])
    else
      match commentThrows with
      | some e => (Except.error e, [Action.postComment o.issue.number])
      | none =>
        (Except.ok
          { notificationComment := notificationComment
            issueDescription := issueDescription
            returnMessage := "Commented on issue " ++ issueDescription
            result := true }, [Action.postComment o.issue.number])

/-- `addIssueComment` (src/update-issue.js:55-81).

After the `try`/`catch`, line 80 executes
`return { ok: result, message: returnMessage };`.  Both `result` and
`returnMessage` are declared inside the `try` block, so when the `try` block
completes normally the `return` statement itself throws
`ReferenceError: result is not defined`.  When the `try` block throws, the
`catch` body (line 78) evaluates a template literal reading
`issueDescription`, also declared inside the `try` block, and therefore
throws `ReferenceError: issueDescription is not defined`.  Hence no call of
this function returns normally. -/
def addIssueComment (repoOwner repoName : String) (commentThrows : Option String)
    (o : OverdueIssue) (isDryRun : Bool) (skipLabelName : String)
    (formatDate : Int → String) (now : Int) : JsResult CommentResult × List Action :=
  match addIssueCommentTryBlock repoOwner repoName commentThrows o isDryRun
      skipLabelName formatDate now with
  | (Except.ok scope, acts) =>
    if tryBlockBindingVisibleOutside ("result") then
      (JsResult.ret { ok := scope.result, message := scope.returnMessage }, acts)
    else
      (JsResult.thrown ("ReferenceError: result is not defined"), acts)
  | (Except.error _e, acts) =>
    if tryBlockBindingVisibleOutside ("issueDescription") then
      (JsResult.thrown ("ReferenceError: result is not defined"), acts)
    else
      (JsResult.thrown ("ReferenceError: issueDescription is not defined"), acts)

/-- The `baseMessage` template of `unlabelIssue` (src/update-issue.js:97). -/
def unlabelBase (repoOwner repoName labelName : String) (o : OverdueIssue) : String :=
  "\x60" ++ labelName ++ "\x60 from issue #" ++ toString o.issue.number ++
    " in \x60" ++ repoOwner ++ "/" ++ repoName ++ "\x60 (" ++ o.issue.title ++ ")"

/-- `unlabelIssue` (src/update-issue.js:96-119).  Unlike `addIssueComment`,
its `returnMessage` and `result` are declared before the `try` block, so it
really does return an `{ok, message}` object on every path.  `removeThrows`
is the behavior of `octokit.rest.issues.removeLabel`. -/
def unlabelIssue (repoOwner repoName : String) (removeThrows : Option String)
    (o : OverdueIssue) (isDryRun : Bool) (labelName : String) :
    CommentResult × List Action :=
  let baseMessage := unlabelBase repoOwner repoName labelName o
  if isDryRun then
    ({ ok := true, message := "[DRY-RUN] Would have removed label " ++ baseMessage }, [])
  else
    match removeThrows with
    | none =>
      ({ ok := true, message := "Removing label " ++ baseMessage },
        [Action.removeLabel o.issue.number])
    | some e =>
      ({ ok := false,
         message := "Unexpected error removing label " ++ baseMessage ++ ": " ++ e },
        [Action.removeLabel o.issue.number])

/-- The configuration and collaborator behavior a run of src/index.js sees:
dry-run flag, repo coordinates, skip label name, the per-issue result of
`getIssueLabeledDate` (`none` models `undefined`: no labeled event found),
the per-issue behavior of the two mutating collaborators, and the date
formatter. -/
structure RunConfig where
  isDryRun : Bool
  projectOrg : String
  projectRepo : String
  skipLabelName : String
  labeledDate : Nat → Option Int
  commentThrows : Nat → Option String
  removeThrows : Nat → Option String
  formatDate : Int → String

/-- The suppression-expiry step of the loop body (src/index.js:46-62): when
the issue carries the skip label, fetch the label-applied date, compute
`daysSkipped = (now - skipLabeledDate) / 86400000` (exact division, no
floor), and remove the label iff `daysSkipped > 30` — since the divisor is
positive this comparison is expressed equivalently as
`now - skipLabeledDate > 30 * 86400000`.  When
`getIssueLabeledDate` returned `undefined`, `now - undefined` is `NaN` and
the comparison is false.  Only the invoked collaborator actions are
returned; `unlabelIssue` never throws. -/
def issueSuppressionActions (cfg : RunConfig) (now : Int) (o : OverdueIssue) : List Action :=
  if o.issue.skip_healthcheck_notification then
    match cfg.labeledDate o.issue.number with
    | none => []
    | some d =>
      if now - d > 30 * 86400000 then
        (unlabelIssue cfg.projectOrg cfg.projectRepo (cfg.removeThrows o.issue.number)
          o cfg.isDryRun cfg.skipLabelName).2
      else []
  else []

/-- One iteration of `for (const enterpriseIssue of overdueIssues)`
(src/index.js:44-78): the suppression-expiry step, then — only when the
issue does NOT carry the skip label — the notification step.  The iteration
result records whether an exception escaped (an `await`ed rejection
propagates out of the loop to the `catch` of `run`).

Arity note: the call at src/index.js:66 passes six arguments, so in the
source `addIssueComment`'s `ratePauseSec` parameter receives the skip label
name and its `skipLabelName` parameter is `undefined`; this model passes the
configured label name instead.  The difference reaches only the composed
message text and the pause duration — not which collaborators are invoked,
nor that the call ends thrown — and no theorem below depends on either. -/
def processOverdueIssue (cfg : RunConfig) (now : Int) (o : OverdueIssue) :
    JsResult Unit × List Action :=
  let suppActs := issueSuppressionActions cfg now o
  if o.issue.skip_healthcheck_notification then
    (JsResult.ret (), suppActs)
  else
    match addIssueComment cfg.projectOrg cfg.projectRepo
        (cfg.commentThrows o.issue.number) o cfg.isDryRun cfg.skipLabelName
        cfg.formatDate now with
    | (JsResult.ret _r, acts) => (JsResult.ret (), suppActs ++ acts)
    | (JsResult.thrown e, acts) => (JsResult.thrown e, suppActs ++ acts)

/-- The whole per-issue loop of `run` (src/index.js:44-78), returning the
trace of collaborator invocations.  An exception thrown by an iteration
aborts the loop (it is caught by the surrounding `catch`, which calls
`core.setFailed`), so later issues are not processed. -/
def runLoop (cfg : RunConfig) (now : Int) : List OverdueIssue → List Action
  | [] => []
  | o :: rest =>
    match processOverdueIssue cfg now o with
    | (JsResult.ret _, acts) => acts ++ runLoop cfg now rest
    | (JsResult.thrown _, acts) => acts

/-! ### Basic lemmas about the matcher -/

theorem mem_of_head?_eq_some {α : Type} {l : List α} {a : α}
    (h : l.head? = some a) : a ∈ l := by
  cases l with
  | nil => simp at h
  | cons x xs =>
    simp only [List.head?_cons, Option.some.injEq] at h
    simp [h]

theorem mem_insertByDate {x a : Healthcheck} :
    ∀ {l : List Healthcheck}, a ∈ insertByDate x l ↔ a = x ∨ a ∈ l := by
  intro l
  induction l with
  | nil => simp [insertByDate]
  | cons y ys ih =>
    by_cases h : jsCompare x y ≤ 0
    · simp [insertByDate, h]
    · simp [insertByDate, h, ih]
      tauto

theorem mem_sortByDateDesc {a : Healthcheck} :
    ∀ {l : List Healthcheck}, a ∈ sortByDateDesc l ↔ a ∈ l := by
  intro l
  induction l with
  | nil => simp [sortByDateDesc]
  | cons x xs ih => simp [sortByDateDesc, mem_insertByDate, ih]

theorem insertByDate_ne_nil (x : Healthcheck) (l : List Healthcheck) :
    insertByDate x l ≠ [] := by
  cases l with
  | nil => simp [insertByDate]
  | cons y ys =>
    unfold insertByDate
    split <;> simp

theorem sortByDateDesc_eq_nil_iff {l : List Healthcheck} :
    sortByDateDesc l = [] ↔ l = [] := by
  cases l with
  | nil => simp [sortByDateDesc]
  | cons x xs => simp [sortByDateDesc, insertByDate_ne_nil]

/-- The head of the descending stable sort carries a maximal valid date:
when all dates in `l` parse, every member's timestamp is bounded by the
head's timestamp. -/
theorem head_sortByDateDesc_ge :
    ∀ (l : List Healthcheck), (∀ hc ∈ l, hc.date.isSome = true) →
      ∀ y, (sortByDateDesc l).head? = some y →
      ∀ x ∈ l, ∀ tx ty : Int, x.date = some tx → y.date = some ty → tx ≤ ty := by
  intro l
  induction l with
  | nil => intro _ y hy; simp [sortByDateDesc] at hy
  | cons a l ih =>
    intro hv y hy x hx tx ty htx hty
    have hva : a.date.isSome = true := hv a (by simp)
    have hvl : ∀ hc ∈ l, hc.date.isSome = true := fun hc hm => hv hc (by simp [hm])
    rw [show sortByDateDesc (a :: l) = insertByDate a (sortByDateDesc l) from rfl] at hy
    cases hs : sortByDateDesc l with
    | nil =>
      have hl : l = [] := sortByDateDesc_eq_nil_iff.mp hs
      rw [hs] at hy
      simp only [insertByDate, List.head?_cons, Option.some.injEq] at hy
      subst hl
      rcases List.mem_singleton.mp hx with rfl
      rw [← hy] at hty
      rw [htx] at hty
      exact le_of_eq (Option.some.injEq _ _ ▸ hty)
    | cons h t =>
      have hhl : h ∈ l := by
        have : h ∈ sortByDateDesc l := by rw [hs]; simp
        exact mem_sortByDateDesc.mp this
      obtain ⟨ta, hta⟩ := Option.isSome_iff_exists.mp hva
      obtain ⟨th, hth⟩ := Option.isSome_iff_exists.mp (hvl h hhl)
      have hcmp : jsCompare a h = th - ta := by simp [jsCompare, hta, hth]
      have ihead : (sortByDateDesc l).head? = some h := by rw [hs]; rfl
      rw [hs] at hy
      by_cases hc : jsCompare a h ≤ 0
      · -- `a` goes to the front
        simp only [insertByDate, hc, if_pos, List.head?_cons, Option.some.injEq] at hy
        subst hy
        have hta' : ta = ty := by rw [hta] at hty; exact Option.some.injEq _ _ ▸ hty
        have hth' : th ≤ ta := by rw [hcmp] at hc; omega
        rcases List.mem_cons.mp hx with rfl | hxl
        · rw [htx] at hta
          have : tx = ta := Option.some.inj hta
          omega
        · have := ih hvl h ihead x hxl tx th htx hth
          omega
      · -- `h` stays at the front
        simp only [insertByDate, hc, if_neg, not_false_iff, List.head?_cons,
          Option.some.injEq] at hy
        subst hy
        have hth' : th = ty := by rw [hth] at hty; exact Option.some.injEq _ _ ▸ hty
        have hlt : ta < th := by rw [hcmp] at hc; omega
        rcases List.mem_cons.mp hx with rfl | hxl
        · rw [htx] at hta
          have : tx = ta := Option.some.inj hta
          omega
        · have := ih hvl h ihead x hxl tx th htx hth
          omega

/-! ### Field lemmas for the reconciled record -/

theorem reconcileIssue_issue (hcs : List Healthcheck) (now : Int) (iss : Issue) :
    (reconcileIssue hcs now iss).issue = iss := by
  cases h : (sortByDateDesc (matchingRecords hcs iss)).head? <;>
    simp [reconcileIssue, h]

theorem reconcileIssue_slug (hcs : List Healthcheck) (now : Int) (iss : Issue) :
    (reconcileIssue hcs now iss).enterprise_slug = stripEnterpriseSlug iss.title := by
  cases h : (sortByDateDesc (matchingRecords hcs iss)).head? <;>
    simp [reconcileIssue, h]

theorem reconcileIssue_days_eq (hcs : List Healthcheck) (now : Int) (iss : Issue) :
    (reconcileIssue hcs now iss).days_since_healthcheck =
      (reconcileIssue hcs now iss).last_healthcheck_date.map
        (Option.map (fun t => Int.fdiv (now - t) msPerDay)) := by
  cases h : (sortByDateDesc (matchingRecords hcs iss)).head? <;>
    simp [reconcileIssue, h]

theorem reconcileIssue_last_none_iff (hcs : List Healthcheck) (now : Int) (iss : Issue) :
    (reconcileIssue hcs now iss).last_healthcheck_date = none ↔
      matchingRecords hcs iss = [] := by
  cases h : (sortByDateDesc (matchingRecords hcs iss)).head? with
  | none =>
    simp only [reconcileIssue, h]
    simp only [List.head?_eq_none_iff] at h
    simp [sortByDateDesc_eq_nil_iff.mp h]
  | some hc =>
    simp only [reconcileIssue, h]
    constructor
    · intro hcon; cases hcon
    · intro hnil
      rw [hnil] at h
      simp [sortByDateDesc] at h

theorem reconcileIssue_last_some (hcs : List Healthcheck) (now : Int) (iss : Issue)
    (d : Option Int)
    (h : (reconcileIssue hcs now iss).last_healthcheck_date = some d) :
    ∃ hc ∈ matchingRecords hcs iss, hc.date = d := by
  cases hh : (sortByDateDesc (matchingRecords hcs iss)).head? with
  | none => simp [reconcileIssue, hh] at h
  | some hc =>
    refine ⟨hc, mem_sortByDateDesc.mp (mem_of_head?_eq_some hh), ?_⟩
    simp [reconcileIssue, hh] at h
    exact h

theorem matchingRecords_sublist (hcs : List Healthcheck) (iss : Issue) :
    ∀ hc ∈ matchingRecords hcs iss, hc ∈ hcs := by
  intro hc h
  exact (List.mem_filter.mp h).1

/-! ### Lemmas about the title regex -/

theorem stripTitle_of_no_marker :
    ∀ (l : List Char), (∀ i : Nat, markerMatchesHere (l.drop i) = false) →
      stripTitle l = l := by
  intro l
  induction l with
  | nil => intro _; rfl
  | cons c rest ih =>
    intro h
    have h0 : markerMatchesHere (c :: rest) = false := h 0
    simp only [stripTitle, h0, Bool.false_eq_true, if_false]
    rw [ih (fun i => h (i + 1))]

theorem stripTitle_of_first_marker :
    ∀ (l : List Char) (i : Nat), markerMatchesHere (l.drop i) = true →
      (∀ j : Nat, j < i → markerMatchesHere (l.drop j) = false) →
      stripTitle l = l.take i := by
  intro l
  induction l with
  | nil =>
    intro i h _
    simp only [List.drop_nil] at h
    simp [markerMatchesHere] at h
  | cons c rest ih =>
    intro i h hmin
    cases i with
    | zero =>
      simp only [List.drop_zero] at h
      simp [stripTitle, h]
    | succ k =>
      have h0 : markerMatchesHere (c :: rest) = false := hmin 0 (Nat.succ_pos k)
      simp only [stripTitle, h0, Bool.false_eq_true, if_false]
      have hk : markerMatchesHere (rest.drop k) = true := h
      have hmin' : ∀ j : Nat, j < k → markerMatchesHere (rest.drop j) = false :=
        fun j hj => hmin (j + 1) (by omega)
      rw [ih k hk hmin']
      rfl

/-! ### Lemmas about ASCII lower-casing -/

theorem isAsciiUpper_asciiLowerChar (c : Char) :
    isAsciiUpper (asciiLowerChar c) = false := by
  by_cases h : isAsciiUpper c = true
  · simp only [asciiLowerChar, h, if_true]
    have hb : 65 ≤ c.toNat ∧ c.toNat ≤ 90 := by
      simpa [isAsciiUpper] using h
    obtain ⟨h1, h2⟩ := hb
    generalize hn : c.toNat = n at h1 h2 ⊢
    interval_cases n <;> decide
  · simp only [asciiLowerChar, h, if_false]
    exact Bool.not_eq_true _ ▸ h

theorem asciiLowerString_ne_of_upper_mem (s slug : String) (c : Char)
    (hc : c ∈ slug.data) (hup : isAsciiUpper c = true) :
    asciiLowerString s ≠ slug := by
  intro heq
  have hdata : s.data.map asciiLowerChar = slug.data := congrArg String.data heq
  rw [← hdata] at hc
  obtain ⟨c0, _, hc0⟩ := List.mem_map.mp hc
  rw [← hc0] at hup
  rw [isAsciiUpper_asciiLowerChar] at hup
  cases hup

/-! ### Claim theorems -/

/-- C1: an issue appears in the output of `findOverdueIssues` iff its
reconciled record has `last_healthcheck_date` null (no matching record) or
`days_since_healthcheck = floor((now - lastRecordDate) / 1 day)` strictly
greater than `maxStalenessInDays`; a most recent matching record exactly
`maxStalenessInDays` days old keeps the issue out of the output, one exactly
`maxStalenessInDays + 1` days old puts it in.  The hypothesis `hvalid`
restricts to parseable record dates, which the claim presupposes by speaking
of `now - lastRecordDate`. -/
theorem c1_overdue_iff (hcs : List Healthcheck) (issues : List Issue)
    (m now : Int) (iss : Issue)
    (hvalid : ∀ hc ∈ hcs, hc.date.isSome = true) (hmem : iss ∈ issues) :
    (reconcileIssue hcs now iss ∈ findOverdueIssues hcs issues m now ↔
      (reconcileIssue hcs now iss).last_healthcheck_date = none ∨
        ∃ t : Int, (reconcileIssue hcs now iss).last_healthcheck_date = some (some t) ∧
          Int.fdiv (now - t) msPerDay > m) ∧
    ((reconcileIssue hcs now iss).last_healthcheck_date = none ↔
      matchingRecords hcs iss = []) ∧
    ((reconcileIssue hcs now iss).last_healthcheck_date = some (some (now - m * msPerDay)) →
      reconcileIssue hcs now iss ∉ findOverdueIssues hcs issues m now) ∧
    ((reconcileIssue hcs now iss).last_healthcheck_date = some (some (now - (m + 1) * msPerDay)) →
      reconcileIssue hcs now iss ∈ findOverdueIssues hcs issues m now) := by
  have hmap : reconcileIssue hcs now iss ∈ issues.map (reconcileIssue hcs now) :=
    List.mem_map_of_mem _ hmem
  have hmemiff : reconcileIssue hcs now iss ∈ findOverdueIssues hcs issues m now ↔
      isOverdue m (reconcileIssue hcs now iss) = true := by
    constructor
    · intro h; exact (List.mem_filter.mp h).2
    · intro h; exact List.mem_filter.mpr ⟨hmap, h⟩
  have hdays := reconcileIssue_days_eq hcs now iss
  have hover : isOverdue m (reconcileIssue hcs now iss) = true ↔
      (reconcileIssue hcs now iss).last_healthcheck_date = none ∨
        ∃ t : Int, (reconcileIssue hcs now iss).last_healthcheck_date = some (some t) ∧
          Int.fdiv (now - t) msPerDay > m := by
    cases hlast : (reconcileIssue hcs now iss).last_healthcheck_date with
    | none =>
      rw [hlast] at hdays
      simp [isOverdue, hlast, hdays]
    | some d =>
      cases d with
      | none =>
        obtain ⟨hc, hmemhc, hdate⟩ := reconcileIssue_last_some hcs now iss none hlast
        have := hvalid hc (matchingRecords_sublist hcs iss hc hmemhc)
        rw [hdate] at this
        cases this
      | some t =>
        rw [hlast] at hdays
        simp only [Option.map_some'] at hdays
        simp only [isOverdue, hlast, hdays, Option.isNone_some, Bool.false_or,
          jsNumGtNullable, decide_eq_true_eq]
        constructor
        · intro h; exact Or.inr ⟨t, rfl, h⟩
        · rintro (h | ⟨t', ht', hgt⟩)
          · cases h
          · have : t = t' := by
              have := Option.some.inj (Option.some.inj ht')
              exact this
            rw [this]; exact hgt
  refine ⟨hmemiff.trans hover, reconcileIssue_last_none_iff hcs now iss, ?_, ?_⟩
  · intro hb
    rw [hmemiff, hover]
    rintro (h | ⟨t, ht, hgt⟩)
    · rw [hb] at h; cases h
    · rw [hb] at ht
      have hteq : now - m * msPerDay = t := Option.some.inj (Option.some.inj ht)
      rw [← hteq] at hgt
      have : now - (now - m * msPerDay) = m * msPerDay := by ring
      rw [this, Int.mul_fdiv_cancel m (by decide : msPerDay ≠ 0)] at hgt
      omega
  · intro hb
    rw [hmemiff, hover]
    refine Or.inr ⟨now - (m + 1) * msPerDay, hb, ?_⟩
    have : now - (now - (m + 1) * msPerDay) = (m + 1) * msPerDay := by ring
    rw [this, Int.mul_fdiv_cancel (m + 1) (by decide : msPerDay ≠ 0)]
    omega

/-- C1 witness: one record for slug `beta` dated at timestamp 0, one issue
titled `beta - 456`, threshold 30 days, `now` 40 days later: the hypotheses
hold and the characterization applies. -/
theorem c1_overdue_iff_witness :
    (∀ hc ∈ [(⟨"beta", some 0⟩ : Healthcheck)], hc.date.isSome = true) ∧
    (⟨456, "beta - 456", "u", [], [], false⟩ : Issue) ∈
      [(⟨456, "beta - 456", "u", [], [], false⟩ : Issue)] ∧
    ((reconcileIssue [⟨"beta", some 0⟩] 3456000000 ⟨456, "beta - 456", "u", [], [], false⟩ ∈
        findOverdueIssues [⟨"beta", some 0⟩] [⟨456, "beta - 456", "u", [], [], false⟩]
          30 3456000000 ↔
      (reconcileIssue [⟨"beta", some 0⟩] 3456000000
          ⟨456, "beta - 456", "u", [], [], false⟩).last_healthcheck_date = none ∨
        ∃ t : Int, (reconcileIssue [⟨"beta", some 0⟩] 3456000000
            ⟨456, "beta - 456", "u", [], [], false⟩).last_healthcheck_date = some (some t) ∧
          Int.fdiv (3456000000 - t) msPerDay > 30) ∧
    ((reconcileIssue [⟨"beta", some 0⟩] 3456000000
        ⟨456, "beta - 456", "u", [], [], false⟩).last_healthcheck_date = none ↔
      matchingRecords [⟨"beta", some 0⟩] ⟨456, "beta - 456", "u", [], [], false⟩ = []) ∧
    ((reconcileIssue [⟨"beta", some 0⟩] 3456000000
        ⟨456, "beta - 456", "u", [], [], false⟩).last_healthcheck_date =
          some (some (3456000000 - 30 * msPerDay)) →
      reconcileIssue [⟨"beta", some 0⟩] 3456000000 ⟨456, "beta - 456", "u", [], [], false⟩ ∉
        findOverdueIssues [⟨"beta", some 0⟩] [⟨456, "beta - 456", "u", [], [], false⟩]
          30 3456000000) ∧
    ((reconcileIssue [⟨"beta", some 0⟩] 3456000000
        ⟨456, "beta - 456", "u", [], [], false⟩).last_healthcheck_date =
          some (some (3456000000 - (30 + 1) * msPerDay)) →
      reconcileIssue [⟨"beta", some 0⟩] 3456000000 ⟨456, "beta - 456", "u", [], [], false⟩ ∈
        findOverdueIssues [⟨"beta", some 0⟩] [⟨456, "beta - 456", "u", [], [], false⟩]
          30 3456000000)) :=
  ⟨by decide, by decide,
    c1_overdue_iff [⟨"beta", some 0⟩] [⟨456, "beta - 456", "u", [], [], false⟩]
      30 3456000000 ⟨456, "beta - 456", "u", [], [], false⟩ (by decide) (by decide)⟩

/-- C2 counterexample: the title `alpha - 12 - 34` contains two
` - <digits>` markers; the claim says everything before the LAST marker
(`alpha - 12`) is kept, but the source regex replaces from the leftmost
match, producing `alpha`. -/
theorem c2_last_marker_counterexample :
    stripEnterpriseSlug ("alpha - 12 - 34") = "alpha" ∧
      stripEnterpriseSlug ("alpha - 12 - 34") ≠ "alpha - 12" := by
  constructor
  · decide
  · decide

/-- C2 (amended): the derived match key is the prefix of the title before the
FIRST index at which the full regex `\s*-\s*\d+.*$` matches — the leftmost
match of the regex is removed.  `markerMatchesHere` is the
matches-at-this-position predicate, including the `.*$` tail: a marker whose
digits are followed by a line terminator before the end of the title is not a
match, since `.` cannot cross line terminators and `$` asserts end of input.
A title at which the regex matches nowhere is its own key. -/
theorem c2_first_marker (title : String) :
    ((∀ i : Nat, markerMatchesHere (title.data.drop i) = false) →
        stripEnterpriseSlug title = title) ∧
    (∀ i : Nat, markerMatchesHere (title.data.drop i) = true →
        (∀ j : Nat, j < i → markerMatchesHere (title.data.drop j) = false) →
        stripEnterpriseSlug title = ⟨title.data.take i⟩) := by
  constructor
  · intro h
    show (⟨stripTitle title.data⟩ : String) = title
    rw [stripTitle_of_no_marker title.data h]
  · intro i h hmin
    show (⟨stripTitle title.data⟩ : String) = ⟨title.data.take i⟩
    rw [stripTitle_of_first_marker title.data i h hmin]

/-- C2 witness: on `alpha - 12 - 34` the first marker index is 5 and the key
is the prefix of length 5, `alpha`. -/
theorem c2_first_marker_witness :
    markerMatchesHere (("alpha - 12 - 34" : String).data.drop 5) = true ∧
    (∀ j : Nat, j < 5 → markerMatchesHere (("alpha - 12 - 34" : String).data.drop j) = false) ∧
    stripEnterpriseSlug ("alpha - 12 - 34") = ⟨("alpha - 12 - 34" : String).data.take 5⟩ :=
  ⟨by decide, by decide, (c2_first_marker ("alpha - 12 - 34")).2 5 (by decide) (by decide)⟩

/-- C6: at the failing input — a single record whose slug matches the issue
but whose date is unparseable (`new Date` gives an Invalid Date) — the
matcher does not reject the record: the record is selected as most recent,
`last_healthcheck_date` becomes its non-null invalid value,
`days_since_healthcheck` is `NaN`, the staleness comparison is silently
false, and the issue is dropped from the overdue output (classified fresh),
contradicting the claim that malformed dates fail loudly. -/
theorem c6_malformed_date_silently_fresh :
    findOverdueIssues [⟨"acme", none⟩] [⟨1, "acme - 1", "u", [], [], false⟩] 30 0 = [] ∧
    (reconcileIssue [⟨"acme", none⟩] 0
        ⟨1, "acme - 1", "u", [], [], false⟩).last_healthcheck_date = some none ∧
    (reconcileIssue [⟨"acme", none⟩] 0
        ⟨1, "acme - 1", "u", [], [], false⟩).days_since_healthcheck = some none ∧
    isOverdue 30 (reconcileIssue [⟨"acme", none⟩] 0
        ⟨1, "acme - 1", "u", [], [], false⟩) = false := by
  refine ⟨?_, ?_, ?_, ?_⟩ <;> decide

/-- C7: record keys are lower-cased at load time
(`parseHealthCheckFile`, modelled by `loadNormalize`) while the issue-derived
key is compared by exact string equality with no lower-casing on the issue
side (`matchingRecords`); hence an issue whose derived key contains an ASCII
upper-case letter matches no loaded record and is classified as having no
records. -/
theorem c7_uppercase_key_never_matches (records : List Healthcheck)
    (now : Int) (iss : Issue)
    (h : ∃ c ∈ (stripEnterpriseSlug iss.title).data, isAsciiUpper c = true) :
    (∀ r : Healthcheck, (loadNormalize r).enterprise_slug =
        asciiLowerString r.enterprise_slug) ∧
    matchingRecords (records.map loadNormalize) iss = [] ∧
    (reconcileIssue (records.map loadNormalize) now iss).last_healthcheck_date = none ∧
    (reconcileIssue (records.map loadNormalize) now iss).days_since_healthcheck = none := by
  obtain ⟨c, hcmem, hcup⟩ := h
  have hmatch : matchingRecords (records.map loadNormalize) iss = [] := by
    rw [matchingRecords, List.filter_eq_nil_iff]
    intro r hr
    obtain ⟨r0, _, hr0⟩ := List.mem_map.mp hr
    rw [← hr0]
    simp only [loadNormalize, beq_iff_eq]
    exact asciiLowerString_ne_of_upper_mem _ _ c hcmem hcup
  have hlast : (reconcileIssue (records.map loadNormalize) now iss).last_healthcheck_date
      = none := (reconcileIssue_last_none_iff _ now iss).mpr hmatch
  refine ⟨fun r => rfl, hmatch, hlast, ?_⟩
  rw [reconcileIssue_days_eq, hlast]
  rfl

/-- C7 witness: a record with slug `Beta` (lower-cased to `beta` at load) and
an issue titled `Beta - 456` (derived key `Beta`, containing the upper-case
`B`): no loaded record matches. -/
theorem c7_uppercase_key_never_matches_witness :
    (∃ c ∈ (stripEnterpriseSlug ("Beta - 456")).data, isAsciiUpper c = true) ∧
    matchingRecords (List.map loadNormalize [⟨"Beta", some 0⟩])
      ⟨456, "Beta - 456", "u", [], [], false⟩ = [] ∧
    (reconcileIssue (List.map loadNormalize [⟨"Beta", some 0⟩]) 3456000000
        ⟨456, "Beta - 456", "u", [], [], false⟩).last_healthcheck_date = none :=
  ⟨by decide,
    (c7_uppercase_key_never_matches [⟨"Beta", some 0⟩] 3456000000
      ⟨456, "Beta - 456", "u", [], [], false⟩ (by decide)).2.1,
    (c7_uppercase_key_never_matches [⟨"Beta", some 0⟩] 3456000000
      ⟨456, "Beta - 456", "u", [], [], false⟩ (by decide)).2.2.1⟩

/-- C8: with at least one matching record and parseable dates, the output
field `last_healthcheck_date` is the `recordedOn` of a matching record whose
timestamp is maximal among the matches, and `days_since_healthcheck` is the
floored day difference from that date; with zero matching records both
fields are null. -/
theorem c8_most_recent_selected (hcs : List Healthcheck) (now : Int) (iss : Issue) :
    (matchingRecords hcs iss = [] →
      (reconcileIssue hcs now iss).last_healthcheck_date = none ∧
      (reconcileIssue hcs now iss).days_since_healthcheck = none) ∧
    (matchingRecords hcs iss ≠ [] →
      (∀ hc ∈ matchingRecords hcs iss, hc.date.isSome = true) →
      ∃ hc ∈ matchingRecords hcs iss, ∃ t : Int, hc.date = some t ∧
        (reconcileIssue hcs now iss).last_healthcheck_date = some (some t) ∧
        (∀ hc2 ∈ matchingRecords hcs iss, ∀ t2 : Int, hc2.date = some t2 → t2 ≤ t) ∧
        (reconcileIssue hcs now iss).days_since_healthcheck =
          some (some (Int.fdiv (now - t) msPerDay))) := by
  constructor
  · intro hnil
    have hlast := (reconcileIssue_last_none_iff hcs now iss).mpr hnil
    refine ⟨hlast, ?_⟩
    rw [reconcileIssue_days_eq, hlast]
    rfl
  · intro hne hv
    have hsne : sortByDateDesc (matchingRecords hcs iss) ≠ [] := by
      intro hs; exact hne (sortByDateDesc_eq_nil_iff.mp hs)
    cases hh : (sortByDateDesc (matchingRecords hcs iss)).head? with
    | none =>
      rw [List.head?_eq_none_iff] at hh
      exact absurd hh hsne
    | some y =>
      have hymem : y ∈ matchingRecords hcs iss :=
        mem_sortByDateDesc.mp (mem_of_head?_eq_some hh)
      obtain ⟨t, ht⟩ := Option.isSome_iff_exists.mp (hv y hymem)
      refine ⟨y, hymem, t, ht, ?_, ?_, ?_⟩
      · simp [reconcileIssue, hh, ht]
      · intro hc2 hmem2 t2 ht2
        exact head_sortByDateDesc_ge (matchingRecords hcs iss) hv y hh hc2 hmem2 t2 t ht2 ht
      · simp [reconcileIssue, hh, ht]

/-- C8 witness: two records for slug `beta`, timestamps 0 and 86400000, and
an issue titled `beta - 1`: the hypotheses hold and the most recent record is
selected. -/
theorem c8_most_recent_selected_witness :
    (matchingRecords [⟨"beta", some 0⟩, ⟨"beta", some 86400000⟩]
        ⟨1, "beta - 1", "u", [], [], false⟩ ≠ []) ∧
    (∀ hc ∈ matchingRecords [⟨"beta", some 0⟩, ⟨"beta", some 86400000⟩]
        ⟨1, "beta - 1", "u", [], [], false⟩, hc.date.isSome = true) ∧
    (∃ hc ∈ matchingRecords [⟨"beta", some 0⟩, ⟨"beta", some 86400000⟩]
        ⟨1, "beta - 1", "u", [], [], false⟩, ∃ t : Int, hc.date = some t ∧
      (reconcileIssue [⟨"beta", some 0⟩, ⟨"beta", some 86400000⟩] 3456000000
          ⟨1, "beta - 1", "u", [], [], false⟩).last_healthcheck_date = some (some t) ∧
      (∀ hc2 ∈ matchingRecords [⟨"beta", some 0⟩, ⟨"beta", some 86400000⟩]
          ⟨1, "beta - 1", "u", [], [], false⟩, ∀ t2 : Int, hc2.date = some t2 → t2 ≤ t) ∧
      (reconcileIssue [⟨"beta", some 0⟩, ⟨"beta", some 86400000⟩] 3456000000
          ⟨1, "beta - 1", "u", [], [], false⟩).days_since_healthcheck =
        some (some (Int.fdiv (3456000000 - t) msPerDay))) :=
  ⟨by decide, by decide,
    (c8_most_recent_selected [⟨"beta", some 0⟩, ⟨"beta", some 86400000⟩] 3456000000
      ⟨1, "beta - 1", "u", [], [], false⟩).2 (by decide) (by decide)⟩

/-- C10: every element kept by `findOverdueIssues` embeds one of the input
issues with all of its fields unchanged (`o.issue` is literally the input
issue object), and differs from it only by the derived fields
`enterprise_slug`, `last_healthcheck_date`, `days_since_healthcheck` added
by the map step. -/
theorem c10_fields_preserved (hcs : List Healthcheck) (issues : List Issue)
    (m now : Int) (o : OverdueIssue)
    (h : o ∈ findOverdueIssues hcs issues m now) :
    o.issue ∈ issues ∧ o = reconcileIssue hcs now o.issue ∧
      o.enterprise_slug = stripEnterpriseSlug o.issue.title := by
  have h1 : o ∈ issues.map (reconcileIssue hcs now) := (List.mem_filter.mp h).1
  obtain ⟨i, hi, hrec⟩ := List.mem_map.mp h1
  subst hrec
  rw [reconcileIssue_issue]
  exact ⟨hi, rfl, reconcileIssue_slug hcs now i⟩

/-- C10 witness: an issue with no records is kept, and its embedded issue is
the input issue. -/
theorem c10_fields_preserved_witness :
    (reconcileIssue [] 0 ⟨9, "gamma - 9", "u", ["al"], ["x"], true⟩ ∈
        findOverdueIssues [] [⟨9, "gamma - 9", "u", ["al"], ["x"], true⟩] 30 0) ∧
    ((reconcileIssue [] 0 ⟨9, "gamma - 9", "u", ["al"], ["x"], true⟩).issue ∈
        [(⟨9, "gamma - 9", "u", ["al"], ["x"], true⟩ : Issue)] ∧
      reconcileIssue [] 0 ⟨9, "gamma - 9", "u", ["al"], ["x"], true⟩ =
        reconcileIssue [] 0
          (reconcileIssue [] 0 ⟨9, "gamma - 9", "u", ["al"], ["x"], true⟩).issue ∧
      (reconcileIssue [] 0 ⟨9, "gamma - 9", "u", ["al"], ["x"], true⟩).enterprise_slug =
        stripEnterpriseSlug
          (reconcileIssue [] 0 ⟨9, "gamma - 9", "u", ["al"], ["x"], true⟩).issue.title) :=
  ⟨by decide,
    c10_fields_preserved [] [⟨9, "gamma - 9", "u", ["al"], ["x"], true⟩] 30 0
      (reconcileIssue [] 0 ⟨9, "gamma - 9", "u", ["al"], ["x"], true⟩) (by decide)⟩

/-! ### Lemmas about the Notifier and the run loop -/

/-- Whatever the collaborator does, `addIssueComment` ends in a thrown
`ReferenceError`: on normal completion of the `try` block the `return`
statement reads the try-scoped `result`, and in the `catch` body the
template reads the try-scoped `issueDescription`. -/
theorem addIssueComment_thrown (repoOwner repoName : String) (ct : Option String)
    (o : OverdueIssue) (dry : Bool) (label : String) (fd : Int → String) (now : Int) :
    ∃ e : String,
      (addIssueComment repoOwner repoName ct o dry label fd now).1 = JsResult.thrown e := by
  unfold addIssueComment
  rcases h : addIssueCommentTryBlock repoOwner repoName ct o dry label fd now with ⟨res, acts⟩
  cases res with
  | ok scope =>
    refine ⟨"ReferenceError: result is not defined", ?_⟩
    simp [tryBlockBindingVisibleOutside]
  | error e =>
    refine ⟨"ReferenceError: issueDescription is not defined", ?_⟩
    simp [tryBlockBindingVisibleOutside]

/-- The collaborator invocations of `addIssueComment` are those of its `try`
block. -/
theorem addIssueComment_acts_eq (repoOwner repoName : String) (ct : Option String)
    (o : OverdueIssue) (dry : Bool) (label : String) (fd : Int → String) (now : Int) :
    (addIssueComment repoOwner repoName ct o dry label fd now).2 =
      (addIssueCommentTryBlock repoOwner repoName ct o dry label fd now).2 := by
  unfold addIssueComment
  rcases h : addIssueCommentTryBlock repoOwner repoName ct o dry label fd now with ⟨res, acts⟩
  cases res <;> simp [tryBlockBindingVisibleOutside]

/-- The `try` block of `addIssueComment` invokes the comment-creation
collaborator at most once, and only for this issue's number. -/
theorem addIssueCommentTryBlock_trace (repoOwner repoName : String) (ct : Option String)
    (o : OverdueIssue) (dry : Bool) (label : String) (fd : Int → String) (now : Int) :
    (addIssueCommentTryBlock repoOwner repoName ct o dry label fd now).2 = [] ∨
      (addIssueCommentTryBlock repoOwner repoName ct o dry label fd now).2 =
        [Action.postComment o.issue.number] := by
  unfold addIssueCommentTryBlock
  cases hcomp : composeNotificationComment o label fd now with
  | error e => left; rfl
  | ok msg =>
    cases dry with
    | true => left; rfl
    | false =>
      cases ct with
      | none => right; rfl
      | some e => right; rfl

/-- In dry-run mode the `try` block of `addIssueComment` performs no
collaborator invocation. -/
theorem addIssueCommentTryBlock_dry_trace (repoOwner repoName : String)
    (ct : Option String) (o : OverdueIssue) (label : String) (fd : Int → String)
    (now : Int) :
    (addIssueCommentTryBlock repoOwner repoName ct o true label fd now).2 = [] := by
  unfold addIssueCommentTryBlock
  cases hcomp : composeNotificationComment o label fd now <;> rfl

/-- `addIssueComment` invokes the comment-creation collaborator at most once,
and only for this issue's number. -/
theorem addIssueComment_trace (repoOwner repoName : String) (ct : Option String)
    (o : OverdueIssue) (dry : Bool) (label : String) (fd : Int → String) (now : Int) :
    (addIssueComment repoOwner repoName ct o dry label fd now).2 = [] ∨
      (addIssueComment repoOwner repoName ct o dry label fd now).2 =
        [Action.postComment o.issue.number] := by
  rw [addIssueComment_acts_eq]
  exact addIssueCommentTryBlock_trace repoOwner repoName ct o dry label fd now

/-- `unlabelIssue` invokes the label-removal collaborator at most once, and
only for this issue's number. -/
theorem unlabelIssue_trace (owner repo : String) (rt : Option String)
    (o : OverdueIssue) (dry : Bool) (label : String) :
    (unlabelIssue owner repo rt o dry label).2 = [] ∨
      (unlabelIssue owner repo rt o dry label).2 = [Action.removeLabel o.issue.number] := by
  unfold unlabelIssue
  cases dry with
  | true => left; rfl
  | false =>
    cases rt with
    | none => right; rfl
    | some e => right; rfl

/-- The suppression-expiry step never invokes the comment-creation
collaborator. -/
theorem issueSuppressionActions_no_postComment (cfg : RunConfig) (now : Int)
    (o : OverdueIssue) (n : Nat) :
    Action.postComment n ∉ issueSuppressionActions cfg now o := by
  unfold issueSuppressionActions
  split
  · split
    · simp
    · split
      · rcases unlabelIssue_trace cfg.projectOrg cfg.projectRepo
            (cfg.removeThrows o.issue.number) o cfg.isDryRun cfg.skipLabelName with h | h <;>
          rw [h] <;> simp
      · simp
  · simp

theorem processOverdueIssue_suppressed (cfg : RunConfig) (now : Int) (o : OverdueIssue)
    (h : o.issue.skip_healthcheck_notification = true) :
    processOverdueIssue cfg now o = (JsResult.ret (), issueSuppressionActions cfg now o) := by
  simp [processOverdueIssue, h]

theorem processOverdueIssue_unsuppressed_acts (cfg : RunConfig) (now : Int)
    (o : OverdueIssue) (h : o.issue.skip_healthcheck_notification = false) :
    (processOverdueIssue cfg now o).2 =
      (addIssueComment cfg.projectOrg cfg.projectRepo (cfg.commentThrows o.issue.number)
        o cfg.isDryRun cfg.skipLabelName cfg.formatDate now).2 := by
  have hs : issueSuppressionActions cfg now o = [] := by
    unfold issueSuppressionActions
    rw [h]
    rfl
  unfold processOverdueIssue
  rw [h]
  simp only [Bool.false_eq_true, if_false]
  rcases hac : addIssueComment cfg.projectOrg cfg.projectRepo
      (cfg.commentThrows o.issue.number) o cfg.isDryRun cfg.skipLabelName
      cfg.formatDate now with ⟨res, acts⟩
  cases res <;> simp [hs]

theorem runLoop_cons (cfg : RunConfig) (now : Int) (o : OverdueIssue)
    (rest : List OverdueIssue) :
    runLoop cfg now (o :: rest) =
      match processOverdueIssue cfg now o with
      | (JsResult.ret _, acts) => acts ++ runLoop cfg now rest
      | (JsResult.thrown _, acts) => acts := rfl

/-- No comment-creation is ever invoked for an issue number all of whose
occurrences in the worklist carry the suppression flag. -/
theorem no_postComment_of_all_suppressed (cfg : RunConfig) (now : Int) :
    ∀ (os : List OverdueIssue) (n : Nat),
      (∀ o ∈ os, o.issue.number = n → o.issue.skip_healthcheck_notification = true) →
      Action.postComment n ∉ runLoop cfg now os := by
  intro os
  induction os with
  | nil => intro n _; simp [runLoop]
  | cons o rest ih =>
    intro n h
    by_cases hskip : o.issue.skip_healthcheck_notification = true
    · rw [runLoop_cons, processOverdueIssue_suppressed cfg now o hskip]
      intro hmem
      rcases List.mem_append.mp hmem with h1 | h2
      · exact issueSuppressionActions_no_postComment cfg now o n h1
      · exact ih n (fun o' ho' => h o' (List.mem_cons_of_mem _ ho')) h2
    · have hnum : o.issue.number ≠ n := fun he => hskip (h o (List.mem_cons_self _ _) he)
      have hskip' : o.issue.skip_healthcheck_notification = false :=
        Bool.not_eq_true _ ▸ hskip
      rw [runLoop_cons]
      rcases hpo : processOverdueIssue cfg now o with ⟨res, acts⟩
      have hacts : acts = [] ∨ acts = [Action.postComment o.issue.number] := by
        have h1 := processOverdueIssue_unsuppressed_acts cfg now o hskip'
        rw [hpo] at h1
        rcases addIssueComment_trace cfg.projectOrg cfg.projectRepo
            (cfg.commentThrows o.issue.number) o cfg.isDryRun cfg.skipLabelName
            cfg.formatDate now with h2 | h2
        · left; exact h1.trans h2
        · right; exact h1.trans h2
      have hnot : Action.postComment n ∉ acts := by
        rcases hacts with rfl | rfl
        · simp
        · simp only [List.mem_singleton, Action.postComment.injEq]
          exact fun hc => hnum hc.symm
      cases res with
      | ret _ =>
        intro hmem
        rcases List.mem_append.mp hmem with h1 | h2
        · exact hnot h1
        · exact ih n (fun o' ho' => h o' (List.mem_cons_of_mem _ ho')) h2
      | thrown _ => exact hnot

/-- Classification does not look at labels or the suppression flag: two
issues with the same title reconcile to the same derived fields. -/
theorem reconcileIssue_title_congr (hcs : List Healthcheck) (now : Int)
    (iss1 iss2 : Issue) (h : iss1.title = iss2.title) :
    (reconcileIssue hcs now iss1).last_healthcheck_date =
        (reconcileIssue hcs now iss2).last_healthcheck_date ∧
      (reconcileIssue hcs now iss1).days_since_healthcheck =
        (reconcileIssue hcs now iss2).days_since_healthcheck := by
  have hm : matchingRecords hcs iss1 = matchingRecords hcs iss2 := by
    unfold matchingRecords
    rw [h]
  cases hh : (sortByDateDesc (matchingRecords hcs iss2)).head? with
  | none => constructor <;> simp [reconcileIssue, hm, hh]
  | some y => constructor <;> simp [reconcileIssue, hm, hh]

theorem isOverdue_congr (m : Int) (o1 o2 : OverdueIssue)
    (h1 : o1.last_healthcheck_date = o2.last_healthcheck_date)
    (h2 : o1.days_since_healthcheck = o2.days_since_healthcheck) :
    isOverdue m o1 = isOverdue m o2 := by
  unfold isOverdue
  rw [h1, h2]

/-- C3 counterexample: a single overdue issue carrying the suppression label,
labeled 40 days ago, processed by a live run: the pass invokes only the label
removal and posts no notification comment to the issue — contradicting the
claim that the issue is treated as not suppressed and notified in the same
pass. -/
theorem c3_same_pass_notification_counterexample :
    runLoop
        ⟨false, "org", "repo", "skip-hc", fun _ => some 0, fun _ => none, fun _ => none,
          fun _ => "January 1, 1970"⟩
        3456000000
        [⟨⟨7, "beta - 7", "u", [], ["skip-hc"], true⟩, "beta", none, none⟩] =
      [Action.removeLabel 7] ∧
    Action.postComment 7 ∉
      runLoop
        ⟨false, "org", "repo", "skip-hc", fun _ => some 0, fun _ => none, fun _ => none,
          fun _ => "January 1, 1970"⟩
        3456000000
        [⟨⟨7, "beta - 7", "u", [], ["skip-hc"], true⟩, "beta", none, none⟩] := by
  constructor
  · decide
  · decide

/-- C3 (amended): for an overdue issue carrying the suppression label whose
label-applied date is more than 30 days before `now`, a live pass invokes the
label removal, but the issue remains treated as suppressed for the remainder
of the run: no notification comment is posted to it in the same pass (the
`skip_healthcheck_notification` flag is never cleared). -/
theorem c3_expired_label_removed_but_not_notified (cfg : RunConfig) (now : Int)
    (o : OverdueIssue)
    (hskip : o.issue.skip_healthcheck_notification = true)
    (d : Int) (hd : cfg.labeledDate o.issue.number = some d)
    (hexp : now - d > 30 * 86400000)
    (hlive : cfg.isDryRun = false) :
    (processOverdueIssue cfg now o).2 = [Action.removeLabel o.issue.number] ∧
      Action.postComment o.issue.number ∉ (processOverdueIssue cfg now o).2 := by
  have hul : (unlabelIssue cfg.projectOrg cfg.projectRepo (cfg.removeThrows o.issue.number)
      o cfg.isDryRun cfg.skipLabelName).2 = [Action.removeLabel o.issue.number] := by
    unfold unlabelIssue
    rw [hlive]
    cases cfg.removeThrows o.issue.number <;> rfl
  have hsup : issueSuppressionActions cfg now o = [Action.removeLabel o.issue.number] := by
    unfold issueSuppressionActions
    rw [hskip, hd]
    simp only [if_true]
    rw [if_pos hexp]
    exact hul
  rw [processOverdueIssue_suppressed cfg now o hskip]
  refine ⟨hsup, ?_⟩
  rw [hsup]
  simp

/-- C3 witness: the amended statement instantiated at the counterexample
input (label applied at timestamp 0, `now` 40 days later, live run). -/
theorem c3_expired_label_removed_but_not_notified_witness :
    ((⟨⟨7, "beta - 7", "u", [], ["skip-hc"], true⟩, "beta", none, none⟩ :
        OverdueIssue).issue.skip_healthcheck_notification = true) ∧
    ((3456000000 - 0 : Int) > 30 * 86400000) ∧
    ((processOverdueIssue
        ⟨false, "org", "repo", "skip-hc", fun _ => some 0, fun _ => none, fun _ => none,
          fun _ => "January 1, 1970"⟩
        3456000000
        ⟨⟨7, "beta - 7", "u", [], ["skip-hc"], true⟩, "beta", none, none⟩).2 =
      [Action.removeLabel 7] ∧
      Action.postComment 7 ∉
        (processOverdueIssue
          ⟨false, "org", "repo", "skip-hc", fun _ => some 0, fun _ => none, fun _ => none,
            fun _ => "January 1, 1970"⟩
          3456000000
          ⟨⟨7, "beta - 7", "u", [], ["skip-hc"], true⟩, "beta", none, none⟩).2) :=
  ⟨rfl, by decide,
    c3_expired_label_removed_but_not_notified
      ⟨false, "org", "repo", "skip-hc", fun _ => some 0, fun _ => none, fun _ => none,
        fun _ => "January 1, 1970"⟩
      3456000000
      ⟨⟨7, "beta - 7", "u", [], ["skip-hc"], true⟩, "beta", none, none⟩
      rfl 0 rfl (by decide) rfl⟩

/-- C4: an issue carrying the suppression label is classified by the matcher
exactly like the same issue without it (the derived fields and the overdue
test depend only on the title and the records), and during the run loop no
notification comment is ever posted for an issue number whose occurrences
are all suppressed — in particular when the suppression is still active
(`daysSuppressed ≤ 30`). -/
theorem c4_suppressed_included_not_notified :
    (∀ (hcs : List Healthcheck) (now m : Int) (iss : Issue) (labels2 : List String)
        (b : Bool),
      (reconcileIssue hcs now
          { iss with labels := labels2,
                     skip_healthcheck_notification := b }).last_healthcheck_date =
        (reconcileIssue hcs now iss).last_healthcheck_date ∧
      (reconcileIssue hcs now
          { iss with labels := labels2,
                     skip_healthcheck_notification := b }).days_since_healthcheck =
        (reconcileIssue hcs now iss).days_since_healthcheck ∧
      isOverdue m (reconcileIssue hcs now
          { iss with labels := labels2, skip_healthcheck_notification := b }) =
        isOverdue m (reconcileIssue hcs now iss)) ∧
    (∀ (cfg : RunConfig) (now : Int) (os : List OverdueIssue) (n : Nat),
      (∀ o ∈ os, o.issue.number = n → o.issue.skip_healthcheck_notification = true) →
      (∀ o ∈ os, o.issue.number = n → ∀ d : Int, cfg.labeledDate n = some d →
        now - d ≤ 30 * 86400000) →
      Action.postComment n ∉ runLoop cfg now os) := by
  constructor
  · intro hcs now m iss labels2 b
    have h := reconcileIssue_title_congr hcs now
      { iss with labels := labels2, skip_healthcheck_notification := b } iss rfl
    exact ⟨h.1, h.2, isOverdue_congr m _ _ h.1 h.2⟩
  · intro cfg now os n hsupp _hactive
    exact no_postComment_of_all_suppressed cfg now os n hsupp

/-- C4 witness: both conjuncts applied at concrete inputs — a suppressed
issue labeled 10 days before `now` (suppression active) receives no comment,
and flipping labels and the flag leaves classification unchanged. -/
theorem c4_suppressed_included_not_notified_witness :
    ((reconcileIssue [⟨"beta", some 0⟩] 864000000
        { (⟨1, "beta - 1", "u", [], [], false⟩ : Issue) with
            labels := ["skip-hc"],
            skip_healthcheck_notification := true }).last_healthcheck_date =
      (reconcileIssue [⟨"beta", some 0⟩] 864000000
        ⟨1, "beta - 1", "u", [], [], false⟩).last_healthcheck_date ∧
      (reconcileIssue [⟨"beta", some 0⟩] 864000000
        { (⟨1, "beta - 1", "u", [], [], false⟩ : Issue) with
            labels := ["skip-hc"],
            skip_healthcheck_notification := true }).days_since_healthcheck =
        (reconcileIssue [⟨"beta", some 0⟩] 864000000
          ⟨1, "beta - 1", "u", [], [], false⟩).days_since_healthcheck ∧
      isOverdue 30 (reconcileIssue [⟨"beta", some 0⟩] 864000000
        { (⟨1, "beta - 1", "u", [], [], false⟩ : Issue) with
            labels := ["skip-hc"],
            skip_healthcheck_notification := true }) =
        isOverdue 30 (reconcileIssue [⟨"beta", some 0⟩] 864000000
          ⟨1, "beta - 1", "u", [], [], false⟩)) ∧
    ((∀ o ∈ [(⟨⟨1, "beta - 1", "u", [], ["skip-hc"], true⟩, "beta", none, none⟩ :
          OverdueIssue)], o.issue.number = 1 →
        o.issue.skip_healthcheck_notification = true) ∧
      Action.postComment 1 ∉
        runLoop
          ⟨false, "org", "repo", "skip-hc", fun _ => some 0, fun _ => none, fun _ => none,
            fun _ => "January 1, 1970"⟩
          864000000
          [⟨⟨1, "beta - 1", "u", [], ["skip-hc"], true⟩, "beta", none, none⟩]) :=
  ⟨c4_suppressed_included_not_notified.1 [⟨"beta", some 0⟩] 864000000 30
      ⟨1, "beta - 1", "u", [], [], false⟩ ["skip-hc"] true,
    by decide,
    c4_suppressed_included_not_notified.2
      ⟨false, "org", "repo", "skip-hc", fun _ => some 0, fun _ => none, fun _ => none,
        fun _ => "January 1, 1970"⟩
      864000000
      [⟨⟨1, "beta - 1", "u", [], ["skip-hc"], true⟩, "beta", none, none⟩] 1
      (by decide)
      (by
        intro o _ _ d hd
        have h0 : (0 : Int) = d := Option.some.inj hd
        cases h0
        decide)⟩

/-- C5: contrary to the claim, `addIssueComment` never completes normally:
whatever the collaborator does (success, thrown error) and whether or not
dry-run is set, the call ends in a thrown `ReferenceError`, because `result`,
`returnMessage` and `issueDescription` are declared inside the `try` block
and the `return` statement (resp. the `catch` body) reads them from outside
that block.  The second conjunct evaluates the dry-run success path at a
concrete input. -/
theorem c5_notify_always_raises :
    (∀ (repoOwner repoName : String) (ct : Option String) (o : OverdueIssue)
        (dry : Bool) (label : String) (fd : Int → String) (now : Int),
      ∃ e : String, (addIssueComment repoOwner repoName ct o dry label fd now).1 =
        JsResult.thrown e) ∧
    (addIssueComment ("org") ("repo") none
        ⟨⟨1, "beta - 1", "u", [], [], false⟩, "beta", none, none⟩ true ("skip-hc")
        (fun _ => "January 1, 1970") 0).1 =
      JsResult.thrown ("ReferenceError: result is not defined") := by
  constructor
  · intro repoOwner repoName ct o dry label fd now
    exact addIssueComment_thrown repoOwner repoName ct o dry label fd now
  · decide

/-- C9: in dry-run mode `unlabelIssue` invokes no mutating collaborator call
and returns `ok = true` with a `[DRY-RUN]`-prefixed message, as claimed; and
dry-run `addIssueComment` likewise invokes no collaborator but — contrary to
the claim — throws a `ReferenceError` instead of returning a result object. -/
theorem c9_dry_run_no_mutation :
    (∀ (owner repo : String) (rt : Option String) (o : OverdueIssue) (label : String),
      (unlabelIssue owner repo rt o true label).2 = [] ∧
      (unlabelIssue owner repo rt o true label).1.ok = true ∧
      ∃ rest : String, (unlabelIssue owner repo rt o true label).1.message =
        "[DRY-RUN]" ++ rest) ∧
    (∀ (owner repo : String) (ct : Option String) (o : OverdueIssue) (label : String)
        (fd : Int → String) (now : Int),
      (addIssueComment owner repo ct o true label fd now).2 = [] ∧
      ∃ e : String, (addIssueComment owner repo ct o true label fd now).1 =
        JsResult.thrown e) := by
  constructor
  · intro owner repo rt o label
    refine ⟨rfl, rfl, ⟨" Would have removed label " ++ unlabelBase owner repo label o, ?_⟩⟩
    show ("[DRY-RUN] Would have removed label ") ++ unlabelBase owner repo label o =
      "[DRY-RUN]" ++ (" Would have removed label " ++ unlabelBase owner repo label o)
    rw [← String.append_assoc]
    have : ("[DRY-RUN]" ++ " Would have removed label " : String) =
        "[DRY-RUN] Would have removed label " := by decide
    rw [this]
  · intro owner repo ct o label fd now
    refine ⟨?_, addIssueComment_thrown owner repo ct o true label fd now⟩
    rw [addIssueComment_acts_eq]
    exact addIssueCommentTryBlock_dry_trace owner repo ct o label fd now

end HcScheduler
